import Mathlib

/-!
Shallow embedding of the PoPS spread-simulation engine
(src/simulation.hpp) and verification of its specification claims.

Rasters (the IntegerRaster template parameter) are modelled as total
functions from a pair of natural-number indices to integers; the
simulation only ever touches indices below the configured row and
column counts.  The C++ random engine together with the distribution
objects drawing from it is modelled by threading an abstract generator
state of type G through the computation, with the sampling primitives
(Poisson draw, uniform draw, dispersal kernel) passed in as explicit
functions, exactly mirroring how the C++ code consumes the single
shared engine in a fixed call order.  Floating-point scalars
(rates, weather coefficients, probabilities) are modelled as rationals;
the C++ double-to-int conversion is modelled by truncation toward zero.
Operations whose C++ evaluation is undefined (division by zero in the
establishment probability, back() on an empty vector) are modelled by
returning none.
-/

namespace pops

/-- The type of an epidemiological model (SI or SEI), from
simulation.hpp.  -/
inductive ModelType where
  | SusceptibleInfected
  | SusceptibleExposedInfected
deriving DecidableEq, Repr

/-- A raster: a 2D integer grid addressed by (row, col). -/
abbrev Grid := Nat → Nat → Int

/-- The all-zero grid (result of raster fill(0)). -/
def zeroGrid : Grid := fun _ _ => 0

/-- Point update of a grid at one cell. -/
def upd (g : Grid) (i j : Nat) (v : Int) : Grid :=
  fun i' j' => if i' = i ∧ j' = j then v else g i' j'

/-- Elementwise addition of rasters (Raster operator+=). -/
def gridAdd (g h : Grid) : Grid := fun i j => g i j + h i j

/-- C++ conversion from double to int: truncation toward zero,
modelled on rationals. -/
def cxxTrunc (q : ℚ) : Int := if 0 ≤ q then ⌊q⌋ else -⌊-q⌋

/-- Row-major list of all in-bounds cells, the iteration order of the
nested for-loops over rows and columns. -/
def cellsList (rows cols : Nat) : List (Nat × Nat) :=
  (List.range rows).flatMap (fun i => (List.range cols).map (fun j => (i, j)))

theorem mem_cellsList {rows cols : Nat} {c : Nat × Nat} :
    c ∈ cellsList rows cols ↔ c.1 < rows ∧ c.2 < cols := by
  cases c with
  | mk i j =>
    simp only [cellsList, List.mem_flatMap, List.mem_map, List.mem_range]
    constructor
    · rintro ⟨a, ha, b, hb, hab⟩
      obtain ⟨h1, h2⟩ := Prod.mk.injEq _ _ _ _ ▸ hab
      exact ⟨h1 ▸ ha, h2 ▸ hb⟩
    · rintro ⟨hi, hj⟩
      exact ⟨i, hi, j, hj, rfl⟩

theorem cellsList_nodup (rows cols : Nat) : (cellsList rows cols).Nodup :=
  (List.nodup_range rows).product (List.nodup_range cols)

/-- Infect exposed hosts (E to I step), from simulation.hpp
(Simulation::infect).  For the SEI model with a full exposed queue,
the oldest cohort (the list head) is added to infected and to the
mortality tracker, zeroed, and rotated to the back; otherwise all
parameters are left unchanged. -/
def infect (model : ModelType) (latency_period : Nat)
    (exposed : List Grid) (infected mortality_tracker : Grid) :
    List Grid × Grid × Grid :=
  match model with
  | .SusceptibleExposedInfected =>
    if latency_period + 1 ≤ exposed.length then
      match exposed with
      | [] => ([], infected, mortality_tracker)
      | oldest :: rest =>
        (rest ++ [zeroGrid], gridAdd infected oldest,
         gridAdd mortality_tracker oldest)
    else (exposed, infected, mortality_tracker)
  | .SusceptibleInfected => (exposed, infected, mortality_tracker)

/-- The mutable state threaded through Simulation::disperse: the
susceptible raster, the raster passed as exposed_or_infected (the
establishment target), the mortality_tracker raster, the
outside_dispersers vector, and the random generator state. -/
structure DState (G : Type) where
  susceptible : Grid
  target : Grid
  tracker : Grid
  outside : List (Int × Int)
  gen : G

/-- One propagule of Simulation::disperse, dispersing from source cell
(i, j).  The kernel consumes generator state and returns a (row, col)
pair that may be out of bounds; unif draws a uniform value in [0,1).
Returns none when the C++ evaluation is undefined: the establishment
probability divides susceptible(row, col) by total_plants(row, col)
with no guard, so a zero divisor (reachable only when susceptible at
the target is positive) is division by zero. -/
def disperseStep {G : Type} (model : ModelType)
    (kernel : G → Nat → Nat → (Int × Int) × G) (unif : G → ℚ × G)
    (rows cols : Nat) (total_plants : Grid)
    (weather : Bool) (wc : Nat → Nat → ℚ)
    (i j : Nat) (s : DState G) : Option (DState G) :=
  let kr := kernel s.gen i j
  let row := kr.1.1
  let col := kr.1.2
  let g1 := kr.2
  if row < 0 ∨ (rows : Int) ≤ row ∨ col < 0 ∨ (cols : Int) ≤ col then
    some { s with outside := s.outside ++ [(row, col)], gen := g1 }
  else
    let r := row.toNat
    let c := col.toNat
    if 0 < s.susceptible r c then
      if total_plants r c = 0 then
        none
      else
        let p0 : ℚ := (s.susceptible r c : ℚ) / (total_plants r c : ℚ)
        let ur := unif g1
        let u := ur.1
        let g2 := ur.2
        let p := if weather then p0 * wc i j else p0
        if u < p then
          some { s with
                 target := upd s.target r c (s.target r c + 1),
                 susceptible := upd s.susceptible r c (s.susceptible r c - 1),
                 tracker :=
                   if model = ModelType.SusceptibleInfected then
                     upd s.tracker r c (s.tracker r c + 1)
                   else s.tracker,
                 gen := g2 }
        else
          some { s with gen := g2 }
    else
      some { s with gen := g1 }

/-- The inner propagule loop of Simulation::disperse at source cell
(i, j): the body runs once per disperser generated at that cell. -/
def disperseCell {G : Type} (model : ModelType)
    (kernel : G → Nat → Nat → (Int × Int) × G) (unif : G → ℚ × G)
    (rows cols : Nat) (dispersers total_plants : Grid)
    (weather : Bool) (wc : Nat → Nat → ℚ)
    (s : DState G) (c : Nat × Nat) : Option (DState G) :=
  if 0 < dispersers c.1 c.2 then
    (List.range (dispersers c.1 c.2).toNat).foldlM
      (fun s _ => disperseStep model kernel unif rows cols total_plants
        weather wc c.1 c.2 s) s
  else
    some s

/-- Simulation::disperse: the row-major double loop over source cells,
running the propagule loop at each. -/
def disperse {G : Type} (model : ModelType)
    (kernel : G → Nat → Nat → (Int × Int) × G) (unif : G → ℚ × G)
    (rows cols : Nat) (dispersers total_plants : Grid)
    (weather : Bool) (wc : Nat → Nat → ℚ)
    (s : DState G) : Option (DState G) :=
  (cellsList rows cols).foldlM
    (disperseCell model kernel unif rows cols dispersers total_plants
      weather wc) s

/-- Simulation::disperse_and_infect, including the C++ semantics of
the local declaration: a reference bound to the infected raster is
then assigned from exposed.back() in the SEI case, which copies the
newest exposed cohort contents into the infected raster (the raster
assignment operator copies elementwise); disperse then runs with the
infected raster as its target in both variants, and for SEI infect()
runs afterwards.  Returns none when the C++ evaluation is undefined
(back() of an empty exposed vector, or an unguarded division inside
disperse). -/
def disperse_and_infect {G : Type} (model : ModelType)
    (latency_period : Nat)
    (kernel : G → Nat → Nat → (Int × Int) × G) (unif : G → ℚ × G)
    (rows cols : Nat) (dispersers : Grid) (susceptible : Grid)
    (exposed : List Grid) (infected mortality_tracker : Grid)
    (total_plants : Grid) (outside : List (Int × Int))
    (weather : Bool) (wc : Nat → Nat → ℚ) (g : G) :
    Option (Grid × List Grid × Grid × Grid × List (Int × Int) × G) := do
  let targetContents ←
    match model with
    | .SusceptibleExposedInfected => exposed.getLast?
    | .SusceptibleInfected => some infected
  let s1 ← disperse model kernel unif rows cols dispersers total_plants
    weather wc
    { susceptible := susceptible, target := targetContents,
      tracker := mortality_tracker, outside := outside, gen := g }
  match model with
  | .SusceptibleExposedInfected =>
    let r := infect model latency_period exposed s1.target s1.tracker
    some (s1.susceptible, r.1, r.2.1, r.2.2, s1.outside, s1.gen)
  | .SusceptibleInfected =>
    some (s1.susceptible, exposed, s1.target, s1.tracker, s1.outside, s1.gen)

/-- Sum of n sequential Poisson draws with mean lam, threading the
generator state: the inner k-loop of Simulation::generate. -/
def drawSum {G : Type} (poisson : ℚ → G → Int × G) (lam : ℚ) :
    Nat → G → Int × G
  | 0, g => (0, g)
  | n + 1, g =>
    let d := poisson lam g
    let rest := drawSum poisson lam n d.2
    (rest.1 + d.1, rest.2)

/-- Per-cell body of Simulation::generate: for a cell with positive
infected count, one Poisson draw per infected host unit is summed into
the dispersers raster (with mean reproductive_rate, multiplied by the
weather coefficient at the cell when weather is enabled); otherwise
the cell is set to zero. -/
def genStep {G : Type} (poisson : ℚ → G → Int × G) (infected : Grid)
    (weather : Bool) (wc : Nat → Nat → ℚ) (reproductive_rate : ℚ)
    (s : Grid × G) (c : Nat × Nat) : Grid × G :=
  if 0 < infected c.1 c.2 then
    let lam := if weather then reproductive_rate * wc c.1 c.2
               else reproductive_rate
    let r := drawSum poisson lam (infected c.1 c.2).toNat s.2
    (upd s.1 c.1 c.2 r.1, r.2)
  else
    (upd s.1 c.1 c.2 0, s.2)

/-- Simulation::generate folded over a given list of cells. -/
def generateAux {G : Type} (poisson : ℚ → G → Int × G) (infected : Grid)
    (weather : Bool) (wc : Nat → Nat → ℚ) (reproductive_rate : ℚ)
    (cs : List (Nat × Nat)) (s : Grid × G) : Grid × G :=
  cs.foldl (genStep poisson infected weather wc reproductive_rate) s

/-- Simulation::generate: the row-major double loop over all cells. -/
def generate {G : Type} (poisson : ℚ → G → Int × G)
    (rows cols : Nat) (dispersers infected : Grid)
    (weather : Bool) (wc : Nat → Nat → ℚ) (reproductive_rate : ℚ)
    (g : G) : Grid × G :=
  generateAux poisson infected weather wc reproductive_rate
    (cellsList rows cols) (dispersers, g)

/-- The grids mutated by Simulation::movement plus the generator
state. -/
structure MoveState (G : Type) where
  infected : Grid
  susceptible : Grid
  total_plants : Grid
  gen : G

/-- The body of the Simulation::movement loop for one movement record
whose scheduled step matches the current step.  rf, cf are the source
cell, rt, ct the destination cell, hosts the requested count.  The
returned flag is false when the loop body hit the continue statement
(both infected and susceptible are zero at the source), in which case
no grid changes.  Returns none when the C++ evaluation is undefined
(division by a zero total_plants at the source in the infected-ratio
branch). -/
def movementApply {G : Type} (poisson : ℚ → G → Int × G)
    (rf cf rt ct : Nat) (hosts : Int) (s : MoveState G) :
    Option (MoveState G × Bool) :=
  let total_hosts_moved : Int :=
    if s.total_plants rf cf < hosts then s.total_plants rf cf else hosts
  let apply : Int → Int → G → MoveState G := fun im sm g =>
    { infected :=
        upd (upd s.infected rf cf (s.infected rf cf - im)) rt ct
          ((upd s.infected rf cf (s.infected rf cf - im)) rt ct + im),
      susceptible :=
        upd (upd s.susceptible rf cf (s.susceptible rf cf - sm)) rt ct
          ((upd s.susceptible rf cf (s.susceptible rf cf - sm)) rt ct + sm),
      total_plants :=
        upd (upd s.total_plants rf cf (s.total_plants rf cf - total_hosts_moved))
          rt ct
          ((upd s.total_plants rf cf
            (s.total_plants rf cf - total_hosts_moved)) rt ct
            + total_hosts_moved),
      gen := g }
  if 0 < s.infected rf cf ∧ 0 < s.susceptible rf cf then
    if s.total_plants rf cf = 0 then none
    else
      let frac : ℚ := (s.infected rf cf : ℚ) / (s.total_plants rf cf : ℚ)
      let infected_mean : Int := cxxTrunc ((total_hosts_moved : ℚ) * frac)
      let dr := if 0 < infected_mean then poisson (infected_mean : ℚ) s.gen
                else (0, s.gen)
      let im0 := dr.1
      let im1 := if s.infected rf cf < im0 then s.infected rf cf else im0
      let im2 := if total_hosts_moved < im1 then total_hosts_moved else im1
      let sm0 := total_hosts_moved - im2
      let sm := if s.susceptible rf cf < sm0 then s.susceptible rf cf else sm0
      some (apply im2 sm dr.2, true)
  else if 0 < s.infected rf cf ∧ s.susceptible rf cf = 0 then
    some (apply total_hosts_moved 0 s.gen, true)
  else if s.infected rf cf = 0 ∧ 0 < s.susceptible rf cf then
    some (apply 0 total_hosts_moved s.gen, true)
  else
    some (s, false)

/-- Simulation::movement: scan the movement list from the cursor,
applying each movement scheduled for the current step and stopping at
the first entry scheduled for a different step. -/
def movementLoop {G : Type} (poisson : ℚ → G → Int × G) (step : Nat)
    (moves : List ((Nat × Nat × Nat × Nat × Int) × Nat))
    (s : MoveState G) : Option (MoveState G) :=
  match moves with
  | [] => some s
  | (mv, sched) :: rest =>
    if sched ≠ step then some s
    else do
      let r ← movementApply poisson mv.1 mv.2.1 mv.2.2.1 mv.2.2.2.1
        mv.2.2.2.2 s
      movementLoop poisson step rest r.1

/-- The state mutated by Simulation::mortality: the infected raster,
the cumulative mortality raster, the mortality_tracker_vector, and
the local mortality_current_year counter. -/
structure MortState where
  infected : Grid
  mortality : Grid
  tracker : List Grid
  counter : Int

/-- The innermost body of Simulation::mortality, at cell (i, j) and
cohort year_index y: when the cohort value is positive, the decrement
is the double product mortality_rate times the cohort value converted
to int (truncation toward zero); it is subtracted from the cohort,
added to the cumulative mortality raster and the counter, and
subtracted from infected when infected is positive at the cell.
Cohort indices are always in range in any defined C++ run (indexing
past the vector end is undefined); out-of-range reads here default to
the zero grid and are never exercised under that precondition. -/
def mortalityBody (mortality_rate : ℚ) (i j : Nat) (s : MortState)
    (y : Nat) : MortState :=
  let c := (s.tracker.getD y zeroGrid) i j
  if 0 < c then
    let d := cxxTrunc (mortality_rate * (c : ℚ))
    { infected :=
        if 0 < s.infected i j then upd s.infected i j (s.infected i j - d)
        else s.infected,
      mortality := upd s.mortality i j (s.mortality i j + d),
      tracker := s.tracker.set y (upd (s.tracker.getD y zeroGrid) i j (c - d)),
      counter := s.counter + d }
  else s

/-- The cohort loop of Simulation::mortality at one cell: year_index
runs from 0 through max_year_index inclusive. -/
def mortalityCellLoop (mortality_rate : ℚ) (maxY : Nat) (i j : Nat)
    (s : MortState) : MortState :=
  (List.range (maxY + 1)).foldl (mortalityBody mortality_rate i j) s

/-- Simulation::mortality: when current_year is at or after
first_mortality_year, run the cohort loop at every cell in row-major
order; otherwise do nothing. -/
def mortality (mortality_rate : ℚ) (current_year first_mortality_year : Int)
    (rows cols : Nat) (s : MortState) : MortState :=
  if first_mortality_year ≤ current_year then
    (cellsList rows cols).foldl
      (fun s c =>
        mortalityCellLoop mortality_rate
          (current_year - first_mortality_year).toNat c.1 c.2 s) s
  else s

/-- The decrement Simulation::mortality applies to one cohort value:
zero when the value is not positive, otherwise the truncated double
product. -/
def cohortDecr (mortality_rate : ℚ) (v : Int) : Int :=
  if 0 < v then cxxTrunc (mortality_rate * (v : ℚ)) else 0

/-! Concrete fixtures used by witness and counterexample theorems. -/

/-- A concrete grid with value 1 everywhere. -/
def wOnes : Grid := fun _ _ => 1

/-- A concrete grid with value 3 everywhere. -/
def wThrees : Grid := fun _ _ => 3

/-- A concrete grid with value 5 everywhere. -/
def wFives : Grid := fun _ _ => 5

/-- A concrete grid with value 10 everywhere. -/
def wTens : Grid := fun _ _ => 10

/-- A concrete dispersal kernel over a unit generator state that
always targets cell (0, 0). -/
def wKernel00 : Unit → Nat → Nat → (Int × Int) × Unit :=
  fun _ _ _ => ((0, 0), ())

/-- A concrete dispersal kernel over a unit generator state that
always lands out of bounds at (-1, 0). -/
def wKernelOut : Unit → Nat → Nat → (Int × Int) × Unit :=
  fun _ _ _ => ((-1, 0), ())

/-- A concrete uniform sampler over a unit generator state that
always draws 0. -/
def wUnif0 : Unit → ℚ × Unit := fun _ => (0, ())

/-- A concrete Poisson sampler over a unit generator state that
always draws 2. -/
def wPois2 : ℚ → Unit → Int × Unit := fun _ _ => (2, ())

/-- A concrete weather-coefficient grid, value 1 everywhere. -/
def wWc : Nat → Nat → ℚ := fun _ _ => 1

/-! Claim theorems. -/

/-- Claim C6 (confirmed): for the SusceptibleExposedInfected variant,
when the exposed-cohort queue holds latency_period + 1 cohorts,
infect() adds the oldest cohort (the queue head) to infected and to
the mortality tracker, zeroes the oldest cohort grid, and rotates the
queue left by one, so the zeroed slot becomes the tail; when the
queue is shorter the call leaves every parameter unchanged, and for
the SusceptibleInfected variant it always leaves every parameter
unchanged. -/
theorem infect_rotates_full_queue (latency_period : Nat) (oldest : Grid)
    (rest : List Grid) (infected tracker : Grid) (es fs : List Grid)
    (hfull : (oldest :: rest).length = latency_period + 1)
    (hshort : es.length < latency_period + 1) :
    infect .SusceptibleExposedInfected latency_period (oldest :: rest)
        infected tracker
      = (rest ++ [zeroGrid], gridAdd infected oldest, gridAdd tracker oldest)
    ∧ infect .SusceptibleExposedInfected latency_period es infected tracker
      = (es, infected, tracker)
    ∧ infect .SusceptibleInfected latency_period fs infected tracker
      = (fs, infected, tracker) := by
  refine ⟨?_, ?_, rfl⟩
  · simp [infect, hfull]
  · simp [infect, Nat.not_le.mpr hshort]

/-- Witness for the claim C6 theorem at a concrete input: latency 1,
a full queue of two cohorts, a short queue of one. -/
theorem infect_rotates_full_queue_witness :
    infect .SusceptibleExposedInfected 1 [wThrees, wOnes] wFives wTens
      = ([wOnes, zeroGrid], gridAdd wFives wThrees, gridAdd wTens wThrees)
    ∧ infect .SusceptibleExposedInfected 1 [wThrees] wFives wTens
      = ([wThrees], wFives, wTens)
    ∧ infect .SusceptibleInfected 1 [wThrees] wFives wTens
      = ([wThrees], wFives, wTens) :=
  infect_rotates_full_queue 1 wThrees [wOnes] wFives wTens [wThrees]
    [wThrees] rfl (by decide)

/-- Claim C9 (confirmed): in disperse(), a propagule whose sampled
target lies outside the grid bounds appends exactly one (row, col)
entry to the outside_dispersers collection, mutates no raster
(susceptible, the establishment target, and the mortality tracker are
untouched), and stops there; only the kernel draw advances the
generator. -/
theorem disperse_outside_recorded {G : Type} (model : ModelType)
    (kernel : G → Nat → Nat → (Int × Int) × G) (unif : G → ℚ × G)
    (rows cols : Nat) (total_plants : Grid) (weather : Bool)
    (wc : Nat → Nat → ℚ) (i j : Nat) (s : DState G)
    (row col : Int) (g1 : G)
    (hk : kernel s.gen i j = ((row, col), g1))
    (hout : row < 0 ∨ (rows : Int) ≤ row ∨ col < 0 ∨ (cols : Int) ≤ col) :
    disperseStep model kernel unif rows cols total_plants weather wc i j s
      = some { s with outside := s.outside ++ [(row, col)], gen := g1 } := by
  simp only [disperseStep, hk]
  rw [if_pos hout]

/-- Witness for the claim C9 theorem: a kernel draw landing at
(-1, 0) on a 1 by 1 grid is recorded as an outside disperser. -/
theorem disperse_outside_recorded_witness :
    disperseStep .SusceptibleInfected wKernelOut wUnif0 1 1 wOnes false wWc
        0 0 ⟨wOnes, zeroGrid, zeroGrid, [], ()⟩
      = some ⟨wOnes, zeroGrid, zeroGrid, [(-1, 0)], ()⟩ :=
  disperse_outside_recorded .SusceptibleInfected wKernelOut wUnif0 1 1
    wOnes false wWc 0 0 ⟨wOnes, zeroGrid, zeroGrid, [], ()⟩ (-1) 0 ()
    rfl (by decide)

theorem upd_same (g : Grid) (i j : Nat) (v : Int) : upd g i j v i j = v := by
  simp [upd]

theorem upd_ne (g : Grid) (i j : Nat) (v : Int) {i2 j2 : Nat}
    (h : ¬(i2 = i ∧ j2 = j)) : upd g i j v i2 j2 = g i2 j2 := by
  simp [upd, h]

/-- Claim C4 counterexample: the establishment-probability division in
disperse() is not guarded against a zero total_plants.  On a 1 by 1
grid with susceptible 1 and total_plants 0 at the target, the
propagule reaches the division with a zero divisor, so its evaluation
is undefined (modelled as none) instead of the zero probability and
guarded result the claim asserts. -/
theorem disperse_zero_total_unguarded_cex :
    disperseStep (G := Unit) .SusceptibleInfected wKernel00 wUnif0 1 1
      zeroGrid false wWc 0 0 ⟨wOnes, zeroGrid, zeroGrid, [], ()⟩ = none :=
  rfl

/-- Claim C4 (corrected): in disperse(), a zero total_plants at an
in-bounds target is never itself tested: the only guard is the
positivity test on susceptible.  When susceptible at the target is
zero — the only situation consistent with a zero total_plants, since
compartments never exceed total_plants — no probability is computed,
no establishment occurs, and no raster changes (only the kernel draw
advances the generator).  When susceptible at the target is positive,
the division by the zero total_plants is unguarded and the evaluation
is undefined. -/
theorem disperse_zero_total_guarded_only_by_susceptible {G : Type}
    (model : ModelType) (kernel : G → Nat → Nat → (Int × Int) × G)
    (unif : G → ℚ × G) (rows cols : Nat) (total_plants : Grid)
    (weather : Bool) (wc : Nat → Nat → ℚ) (i j : Nat) (s : DState G)
    (row col : Int) (g1 : G)
    (hk : kernel s.gen i j = ((row, col), g1))
    (hin : ¬(row < 0 ∨ (rows : Int) ≤ row ∨ col < 0 ∨ (cols : Int) ≤ col))
    (htp : total_plants row.toNat col.toNat = 0) :
    (s.susceptible row.toNat col.toNat = 0 →
      disperseStep model kernel unif rows cols total_plants weather wc i j s
        = some { s with gen := g1 })
    ∧ (0 < s.susceptible row.toNat col.toNat →
      disperseStep model kernel unif rows cols total_plants weather wc i j s
        = none) := by
  constructor
  · intro hz
    simp only [disperseStep, hk]
    rw [if_neg hin, if_neg (by rw [hz]; exact lt_irrefl 0)]
  · intro hpos
    simp only [disperseStep, hk]
    rw [if_neg hin, if_pos hpos, if_pos htp]

/-- Witness for the claim C4 theorem: on a 1 by 1 grid with
total_plants 0 everywhere, a propagule to the in-bounds target (0, 0)
with susceptible 0 is a defined no-change step, and one with
susceptible 1 is undefined. -/
theorem disperse_zero_total_guarded_only_by_susceptible_witness :
    (zeroGrid 0 0 = 0 →
      disperseStep (G := Unit) .SusceptibleInfected wKernel00 wUnif0 1 1
          zeroGrid false wWc 0 0 ⟨zeroGrid, zeroGrid, zeroGrid, [], ()⟩
        = some ⟨zeroGrid, zeroGrid, zeroGrid, [], ()⟩)
    ∧ (0 < zeroGrid 0 0 →
      disperseStep (G := Unit) .SusceptibleInfected wKernel00 wUnif0 1 1
          zeroGrid false wWc 0 0 ⟨zeroGrid, zeroGrid, zeroGrid, [], ()⟩
        = none) :=
  disperse_zero_total_guarded_only_by_susceptible .SusceptibleInfected
    wKernel00 wUnif0 1 1 zeroGrid false wWc 0 0
    ⟨zeroGrid, zeroGrid, zeroGrid, [], ()⟩ 0 0 () rfl (by decide) rfl

/-- Claim C5 counterexample: in the SusceptibleExposedInfected
variant, an established propagule does not increment the mortality
tracker inside disperse().  On a 1 by 1 grid with susceptible 1 and
total_plants 1 at the target and a uniform draw of 0, establishment
happens (the target compartment goes from 0 to 1 and susceptible from
1 to 0) yet the tracker stays 0, not 1 as the claim asserts. -/
theorem disperse_establish_sei_tracker_cex :
    (disperseStep (G := Unit) .SusceptibleExposedInfected wKernel00 wUnif0
        1 1 wOnes false wWc 0 0 ⟨wOnes, zeroGrid, zeroGrid, [], ()⟩).map
      (fun s2 => (s2.susceptible 0 0, s2.target 0 0, s2.tracker 0 0))
      = some (0, 1, 0) := by
  simp only [disperseStep, wKernel00, wUnif0]
  norm_num [wOnes, wWc, upd, zeroGrid]
  decide

/-- Claim C5 (corrected): in disperse(), a propagule whose uniform
draw falls below the establishment probability at an in-bounds target
with positive susceptible hosts (and a nonzero total_plants, which the
unguarded division needs to be defined) decrements susceptible at the
target by exactly 1 and increments the establishment-target
compartment there by exactly 1 in both variants, but increments the
current mortality cohort (mortality_tracker) by 1 only in the
SusceptibleInfected variant; in the SusceptibleExposedInfected
variant the tracker is unchanged by disperse().  The outside list is
untouched. -/
theorem disperse_establish_effects {G : Type} (model : ModelType)
    (kernel : G → Nat → Nat → (Int × Int) × G) (unif : G → ℚ × G)
    (rows cols : Nat) (total_plants : Grid) (weather : Bool)
    (wc : Nat → Nat → ℚ) (i j : Nat) (s : DState G)
    (row col : Int) (g1 : G) (u : ℚ) (g2 : G)
    (hk : kernel s.gen i j = ((row, col), g1))
    (hin : ¬(row < 0 ∨ (rows : Int) ≤ row ∨ col < 0 ∨ (cols : Int) ≤ col))
    (hsus : 0 < s.susceptible row.toNat col.toNat)
    (htp : ¬(total_plants row.toNat col.toNat = 0))
    (hu : unif g1 = (u, g2))
    (hlt : u < (if weather then
        ((s.susceptible row.toNat col.toNat : ℚ)
          / (total_plants row.toNat col.toNat : ℚ)) * wc i j
      else
        (s.susceptible row.toNat col.toNat : ℚ)
          / (total_plants row.toNat col.toNat : ℚ))) :
    (disperseStep model kernel unif rows cols total_plants weather wc
        i j s).map
      (fun s2 => (s2.susceptible row.toNat col.toNat,
                  s2.target row.toNat col.toNat,
                  s2.tracker row.toNat col.toNat,
                  s2.outside))
      = some (s.susceptible row.toNat col.toNat - 1,
              s.target row.toNat col.toNat + 1,
              s.tracker row.toNat col.toNat
                + (if model = ModelType.SusceptibleInfected then 1 else 0),
              s.outside) := by
  simp only [disperseStep, hk]
  rw [if_neg hin, if_pos hsus, if_neg htp]
  simp only [hu]
  rw [if_pos hlt]
  simp only [Option.map_some', Option.some.injEq]
  by_cases hm : model = ModelType.SusceptibleInfected
  · simp [hm, upd]
  · simp [hm, upd]

/-- Witness for the claim C5 theorem: an establishing propagule in
the SusceptibleInfected variant on a 1 by 1 grid decrements
susceptible, increments the target compartment, and increments the
tracker. -/
theorem disperse_establish_effects_witness :
    (disperseStep (G := Unit) .SusceptibleInfected wKernel00 wUnif0 1 1
        wOnes false wWc 0 0 ⟨wOnes, zeroGrid, zeroGrid, [], ()⟩).map
      (fun s2 => (s2.susceptible 0 0, s2.target 0 0, s2.tracker 0 0,
                  s2.outside))
      = some (((wOnes 0 0 : Int) - 1), ((zeroGrid 0 0 : Int) + 1),
              ((zeroGrid 0 0 : Int)
                + (if ModelType.SusceptibleInfected
                      = ModelType.SusceptibleInfected then 1 else 0)),
              ([] : List (Int × Int))) :=
  disperse_establish_effects .SusceptibleInfected wKernel00 wUnif0 1 1
    wOnes false wWc 0 0 ⟨wOnes, zeroGrid, zeroGrid, [], ()⟩ 0 0 () 0 ()
    rfl (by decide) (by decide) (by decide) rfl (by norm_num [wOnes, wWc])

/-- Claim C1 (code bug): disperse_and_infect() is meant to pass the
newest exposed cohort as the disperse target in the SEI variant
without touching any compartment, but the local declaration binds a
reference to the infected raster and then assigns exposed.back() to
it, which copies the newest cohort contents into the infected raster
and leaves the infected raster (not the cohort) as the target.  At
the concrete failing input below — SEI model, latency 1, two all-zero
exposed cohorts, infected 5 everywhere, no dispersers — nothing in
this step should change infected, yet the call returns infected 0 at
cell (0, 0): the prior infected population is destroyed by the
selection alone. -/
theorem disperse_and_infect_sei_overwrites_infected :
    (disperse_and_infect (G := Unit) .SusceptibleExposedInfected 1
        wKernel00 wUnif0 1 1 zeroGrid zeroGrid [zeroGrid, zeroGrid]
        wFives zeroGrid wOnes [] false wWc ()).map
      (fun r => r.2.2.1 0 0)
      = some 0 :=
  rfl

theorem genStep_apply_ne {G : Type} (poisson : ℚ → G → Int × G)
    (infected : Grid) (weather : Bool) (wc : Nat → Nat → ℚ) (rate : ℚ)
    (s : Grid × G) (c : Nat × Nat) {i j : Nat}
    (h : ¬(i = c.1 ∧ j = c.2)) :
    (genStep poisson infected weather wc rate s c).1 i j = s.1 i j := by
  unfold genStep
  split_ifs <;> exact upd_ne _ _ _ _ h

theorem generateAux_apply_notMem {G : Type} (poisson : ℚ → G → Int × G)
    (infected : Grid) (weather : Bool) (wc : Nat → Nat → ℚ) (rate : ℚ)
    (cs : List (Nat × Nat)) (s : Grid × G) {i j : Nat}
    (h : (i, j) ∉ cs) :
    (generateAux poisson infected weather wc rate cs s).1 i j = s.1 i j := by
  induction cs generalizing s with
  | nil => rfl
  | cons c cs ih =>
    have hne : (i, j) ≠ c := fun hc => h (hc ▸ List.mem_cons_self c cs)
    have hcs : (i, j) ∉ cs := fun hc => h (List.mem_cons_of_mem c hc)
    show (generateAux poisson infected weather wc rate cs
      (genStep poisson infected weather wc rate s c)).1 i j = s.1 i j
    rw [ih _ hcs]
    exact genStep_apply_ne poisson infected weather wc rate s c
      (fun hc => hne (Prod.ext hc.1 hc.2))

/-- Claim C7 (confirmed): in generate(), the dispersers value written
at an in-bounds cell with positive infected count is the sum of
infected(i, j) sequential Poisson draws, one per infected host unit
(not one pooled draw), each with mean reproductive_rate, multiplied
by the weather coefficient at the cell when weather is enabled,
starting from the generator state left by the previously processed
cells; at a cell with non-positive infected count the value written
is zero. -/
theorem generate_one_draw_per_host {G : Type} (poisson : ℚ → G → Int × G)
    (rows cols : Nat) (dispersers infected : Grid) (weather : Bool)
    (wc : Nat → Nat → ℚ) (rate : ℚ) (g : G) (i j : Nat)
    (pre post : List (Nat × Nat))
    (hsplit : cellsList rows cols = pre ++ (i, j) :: post)
    (hpost : (i, j) ∉ post) :
    (generate poisson rows cols dispersers infected weather wc rate g).1 i j
      = if 0 < infected i j then
          (drawSum poisson (if weather then rate * wc i j else rate)
            (infected i j).toNat
            (generateAux poisson infected weather wc rate pre
              (dispersers, g)).2).1
        else 0 := by
  unfold generate
  rw [hsplit]
  unfold generateAux
  rw [List.foldl_append, List.foldl_cons]
  have h1 := generateAux_apply_notMem poisson infected weather wc rate post
    (genStep poisson infected weather wc rate
      ((pre.foldl (genStep poisson infected weather wc rate)
        (dispersers, g))) (i, j)) hpost
  unfold generateAux at h1
  rw [h1]
  show (genStep poisson infected weather wc rate _ (i, j)).1 i j = _
  simp only [genStep]
  split_ifs <;> exact upd_same _ _ _ _

theorem generateAux_gen_congr {G : Type} (poisson : ℚ → G → Int × G)
    (infected : Grid) (weather : Bool) (wc : Nat → Nat → ℚ) (rate : ℚ)
    (cs : List (Nat × Nat)) :
    ∀ (s1 s2 : Grid × G), s1.2 = s2.2 →
      (generateAux poisson infected weather wc rate cs s1).2
        = (generateAux poisson infected weather wc rate cs s2).2
      ∧ (∀ c ∈ cs,
          (generateAux poisson infected weather wc rate cs s1).1 c.1 c.2
            = (generateAux poisson infected weather wc rate cs s2).1 c.1 c.2)
      ∧ (∀ i j, s1.1 i j = s2.1 i j →
          (generateAux poisson infected weather wc rate cs s1).1 i j
            = (generateAux poisson infected weather wc rate cs s2).1 i j) := by
  induction cs with
  | nil =>
    intro s1 s2 hg
    exact ⟨hg, by simp, fun i j h => h⟩
  | cons c cs ih =>
    intro s1 s2 hg
    have hstep_gen : (genStep poisson infected weather wc rate s1 c).2
        = (genStep poisson infected weather wc rate s2 c).2 := by
      unfold genStep
      split_ifs <;> simp [hg]
    have hstep_at : ∀ i j, ((i = c.1 ∧ j = c.2) ∨ s1.1 i j = s2.1 i j) →
        (genStep poisson infected weather wc rate s1 c).1 i j
          = (genStep poisson infected weather wc rate s2 c).1 i j := by
      intro i j hij
      unfold genStep
      rcases hij with hij | hij
      · split_ifs <;> simp [upd, hij.1, hij.2, hg]
      · split_ifs <;> simp [upd, hij, hg]
    obtain ⟨hA, hB, hC⟩ := ih (genStep poisson infected weather wc rate s1 c)
      (genStep poisson infected weather wc rate s2 c) hstep_gen
    refine ⟨hA, ?_, ?_⟩
    · intro d hd
      rcases List.mem_cons.mp hd with hd | hd
      · subst hd
        exact hC d.1 d.2 (hstep_at d.1 d.2 (Or.inl ⟨rfl, rfl⟩))
      · exact hB d hd
    · intro i j hij
      exact hC i j (hstep_at i j (Or.inr hij))

/-- Claim C10 (confirmed): generate() writes every in-bounds cell of
the dispersers raster (a Poisson sum or zero), so two runs from the
same generator state with identical infected, weather, and rate
inputs but arbitrary different initial dispersers contents produce
identical dispersers output at every in-bounds cell and identical
final generator state. -/
theorem generate_indep_of_prior_dispersers {G : Type}
    (poisson : ℚ → G → Int × G) (rows cols : Nat) (d1 d2 infected : Grid)
    (weather : Bool) (wc : Nat → Nat → ℚ) (rate : ℚ) (g : G) :
    (generate poisson rows cols d1 infected weather wc rate g).2
      = (generate poisson rows cols d2 infected weather wc rate g).2
    ∧ ∀ i j, i < rows → j < cols →
      (generate poisson rows cols d1 infected weather wc rate g).1 i j
        = (generate poisson rows cols d2 infected weather wc rate g).1 i j := by
  obtain ⟨hA, hB, _⟩ := generateAux_gen_congr poisson infected weather wc
    rate (cellsList rows cols) (d1, g) (d2, g) rfl
  exact ⟨hA, fun i j hi hj => hB (i, j) (mem_cellsList.mpr ⟨hi, hj⟩)⟩

/-- Witness for the claim C10 theorem on a 1 by 1 grid: initial
dispersers all one versus all ten, same generator state, identical
output at (0, 0) and identical final state. -/
theorem generate_indep_of_prior_dispersers_witness :
    (generate wPois2 1 1 wOnes wThrees false wWc 1 ()).2
      = (generate wPois2 1 1 wTens wThrees false wWc 1 ()).2
    ∧ (generate wPois2 1 1 wOnes wThrees false wWc 1 ()).1 0 0
      = (generate wPois2 1 1 wTens wThrees false wWc 1 ()).1 0 0 :=
  ⟨(generate_indep_of_prior_dispersers wPois2 1 1 wOnes wTens wThrees
      false wWc 1 ()).1,
   (generate_indep_of_prior_dispersers wPois2 1 1 wOnes wTens wThrees
      false wWc 1 ()).2 0 0 (by decide) (by decide)⟩

/-- Witness for the claim C7 theorem on a 1 by 1 grid with infected 3:
the written value is the sum of three per-host draws. -/
theorem generate_one_draw_per_host_witness :
    (generate wPois2 1 1 wOnes wThrees false wWc 1 ()).1 0 0
      = if 0 < wThrees 0 0 then
          (drawSum wPois2 (if false then 1 * wWc 0 0 else 1)
            (wThrees 0 0).toNat
            (generateAux wPois2 wThrees false wWc 1 [] (wOnes, ())).2).1
        else 0 :=
  generate_one_draw_per_host wPois2 1 1 wOnes wThrees false wWc 1 () 0 0
    [] [] rfl (by decide)

/-- Claim C8 (confirmed): a movement applied by movement() at the
current step with distinct source and destination cells moves
min(requested host count, total_plants at the source) hosts in total
(that amount leaves the source total and arrives at the destination
total), and the sums of infected, of susceptible, and of total_plants
over the source and destination cells are each exactly conserved by
the transfer. -/
theorem movement_applied_conserves {G : Type} (poisson : ℚ → G → Int × G)
    (rf cf rt ct : Nat) (hosts : Int) (s s2 : MoveState G)
    (hne : (rf, cf) ≠ (rt, ct))
    (happ : movementApply poisson rf cf rt ct hosts s = some (s2, true)) :
    s.total_plants rf cf - s2.total_plants rf cf
        = min hosts (s.total_plants rf cf)
    ∧ s2.total_plants rt ct - s.total_plants rt ct
        = min hosts (s.total_plants rf cf)
    ∧ s2.infected rf cf + s2.infected rt ct
        = s.infected rf cf + s.infected rt ct
    ∧ s2.susceptible rf cf + s2.susceptible rt ct
        = s.susceptible rf cf + s.susceptible rt ct
    ∧ s2.total_plants rf cf + s2.total_plants rt ct
        = s.total_plants rf cf + s.total_plants rt ct := by
  have hne1 : ¬(rf = rt ∧ cf = ct) := by
    intro h
    exact hne (Prod.ext h.1 h.2)
  have hne2 : ¬(rt = rf ∧ ct = cf) := by
    intro h
    exact hne1 ⟨h.1.symm, h.2.symm⟩
  simp only [movementApply] at happ
  split_ifs at happ
  all_goals
    obtain ⟨heq, hflag⟩ := Prod.mk.injEq _ _ _ _ ▸ Option.some.inj happ
  all_goals try exact Bool.noConfusion hflag
  all_goals subst heq
  all_goals
    simp only [upd_same, upd_ne _ _ _ _ hne1, upd_ne _ _ _ _ hne2]
  all_goals omega

/-- The movement state used by the claim C8 witness: no infected,
five susceptible and five total plants everywhere. -/
def wMv : MoveState Unit := ⟨zeroGrid, wFives, wFives, ()⟩

/-- The state after the claim C8 witness movement of three hosts from
cell (0, 0) to cell (0, 1). -/
def wMv2 : MoveState Unit :=
  ((movementApply wPois2 0 0 0 1 3 wMv).getD (wMv, false)).1

/-- Witness for the claim C8 theorem: moving 3 of 5 available hosts
from (0, 0) to (0, 1) moves exactly min(3, 5) hosts and conserves
each compartment sum over the two cells. -/
theorem movement_applied_conserves_witness :
    wMv.total_plants 0 0 - wMv2.total_plants 0 0
        = min 3 (wMv.total_plants 0 0)
    ∧ wMv2.total_plants 0 1 - wMv.total_plants 0 1
        = min 3 (wMv.total_plants 0 0)
    ∧ wMv2.infected 0 0 + wMv2.infected 0 1
        = wMv.infected 0 0 + wMv.infected 0 1
    ∧ wMv2.susceptible 0 0 + wMv2.susceptible 0 1
        = wMv.susceptible 0 0 + wMv.susceptible 0 1
    ∧ wMv2.total_plants 0 0 + wMv2.total_plants 0 1
        = wMv.total_plants 0 0 + wMv.total_plants 0 1 :=
  movement_applied_conserves wPois2 0 0 0 1 3 wMv wMv2 (by decide) rfl

/-- The slice of the mortality state visible at one cell: the cohort
values by year index, the cumulative mortality value, the infected
value, and the (global) counter. -/
structure CellView where
  coh : Nat → Int
  mort : Int
  inf : Int
  cnt : Int

/-- The cell view of a mortality state at cell (i, j). -/
def viewAt (i j : Nat) (s : MortState) : CellView :=
  ⟨fun y => (s.tracker.getD y zeroGrid) i j, s.mortality i j,
   s.infected i j, s.counter⟩

/-- The action of the mortality inner body on one cell view. -/
def cellStep (rate : ℚ) (v : CellView) (y : Nat) : CellView :=
  if 0 < v.coh y then
    let d := cxxTrunc (rate * (v.coh y : ℚ))
    ⟨Function.update v.coh y (v.coh y - d), v.mort + d,
     if 0 < v.inf then v.inf - d else v.inf, v.cnt + d⟩
  else v

/-- The cohort loop on one cell view: year indices 0 through n - 1. -/
def cellFold (rate : ℚ) (n : Nat) (v : CellView) : CellView :=
  (List.range n).foldl (cellStep rate) v

/-- Total decrement applied at one cell over cohort indices below n. -/
def cellDelta (rate : ℚ) (n : Nat) (coh : Nat → Int) : Int :=
  ∑ y ∈ Finset.range n, cohortDecr rate (coh y)

theorem tracker_set_getD (l : List Grid) (y y2 : Nat) (g : Grid) :
    (l.set y g).getD y2 zeroGrid
      = if y2 = y ∧ y < l.length then g else l.getD y2 zeroGrid := by
  induction l generalizing y y2 with
  | nil => simp
  | cons a t ih =>
    cases y with
    | zero =>
      cases y2 with
      | zero => simp
      | succ k => simp
    | succ m =>
      cases y2 with
      | zero => simp
      | succ k =>
        simp only [List.set_cons_succ, List.getD_cons_succ, ih m k,
          List.length_cons]
        have : (k = m ∧ m < t.length) ↔ (k + 1 = m + 1 ∧ m + 1 < t.length + 1) := by
          omega
        rw [if_congr this rfl rfl]

theorem cohortDecr_nonneg (rate : ℚ) (v : Int) (h0 : 0 ≤ rate) :
    0 ≤ cohortDecr rate v := by
  unfold cohortDecr
  split_ifs with hv
  · unfold cxxTrunc
    rw [if_pos (by positivity)]
    exact Int.floor_nonneg.mpr (by positivity)
  · exact le_refl 0

theorem cohortDecr_le_self (rate : ℚ) (v : Int) (h0 : 0 ≤ rate)
    (h1 : rate ≤ 1) (hv : 0 ≤ v) : cohortDecr rate v ≤ v := by
  unfold cohortDecr
  split_ifs with hpos
  · unfold cxxTrunc
    rw [if_pos (by positivity)]
    calc ⌊rate * (v : ℚ)⌋ ≤ ⌊(v : ℚ)⌋ := by
          apply Int.floor_le_floor
          exact mul_le_of_le_one_left (by positivity) h1
      _ = v := Int.floor_intCast v
  · exact hv

theorem cellFold_succ (rate : ℚ) (n : Nat) (v : CellView) :
    cellFold rate (n + 1) v = cellStep rate (cellFold rate n v) n := by
  unfold cellFold
  rw [List.range_succ, List.foldl_append, List.foldl_cons, List.foldl_nil]

theorem cellStep_coh (rate : ℚ) (v : CellView) (y y2 : Nat) :
    (cellStep rate v y).coh y2
      = if y2 = y then v.coh y2 - cohortDecr rate (v.coh y2) else v.coh y2 := by
  unfold cellStep
  by_cases hpos : 0 < v.coh y
  · rw [if_pos hpos]
    by_cases hy : y2 = y
    · subst hy
      rw [if_pos rfl]
      unfold cohortDecr
      rw [if_pos hpos]
      simp [Function.update_same]
    · simp only [Function.update_noteq hy, if_neg hy]
  · rw [if_neg hpos]
    by_cases hy : y2 = y
    · subst hy
      rw [if_pos rfl]
      unfold cohortDecr
      rw [if_neg hpos]
      ring
    · rw [if_neg hy]

theorem cellStep_mort (rate : ℚ) (v : CellView) (y : Nat) :
    (cellStep rate v y).mort = v.mort + cohortDecr rate (v.coh y) := by
  unfold cellStep cohortDecr
  by_cases hpos : 0 < v.coh y
  · rw [if_pos hpos, if_pos hpos]
  · rw [if_neg hpos, if_neg hpos]
    ring

theorem cellStep_cnt (rate : ℚ) (v : CellView) (y : Nat) :
    (cellStep rate v y).cnt = v.cnt + cohortDecr rate (v.coh y) := by
  unfold cellStep cohortDecr
  by_cases hpos : 0 < v.coh y
  · rw [if_pos hpos, if_pos hpos]
  · rw [if_neg hpos, if_neg hpos]
    ring

theorem cellStep_inf_ge (rate : ℚ) (v : CellView) (y : Nat)
    (h0 : 0 ≤ rate) :
    v.inf - cohortDecr rate (v.coh y) ≤ (cellStep rate v y).inf := by
  have hd := cohortDecr_nonneg rate (v.coh y) h0
  unfold cellStep
  by_cases hpos : 0 < v.coh y
  · rw [if_pos hpos]
    have : cohortDecr rate (v.coh y) = cxxTrunc (rate * (v.coh y : ℚ)) := by
      unfold cohortDecr
      rw [if_pos hpos]
    rw [← this]
    by_cases hinf : 0 < v.inf
    · simp only [if_pos hinf]
      omega
    · simp only [if_neg hinf]
      omega
  · rw [if_neg hpos]
    omega

theorem cellFold_coh (rate : ℚ) (n : Nat) (v : CellView) (y : Nat) :
    (cellFold rate n v).coh y
      = if y < n then v.coh y - cohortDecr rate (v.coh y) else v.coh y := by
  induction n generalizing y with
  | zero => simp [cellFold]
  | succ n ih =>
    rw [cellFold_succ, cellStep_coh]
    by_cases hy : y = n
    · subst hy
      rw [if_pos rfl, ih y]
      simp only [Nat.lt_irrefl, if_false]
      rw [if_pos (Nat.lt_succ_self y)]
    · rw [if_neg hy, ih y]
      have heq : y < n + 1 ↔ y < n := by omega
      rw [if_congr heq rfl rfl]

theorem cellFold_mort (rate : ℚ) (n : Nat) (v : CellView) :
    (cellFold rate n v).mort = v.mort + cellDelta rate n v.coh := by
  induction n with
  | zero => simp [cellFold, cellDelta]
  | succ n ih =>
    rw [cellFold_succ, cellStep_mort, ih, cellFold_coh]
    simp only [Nat.lt_irrefl, if_false]
    unfold cellDelta
    rw [Finset.sum_range_succ]
    ring

theorem cellFold_cnt (rate : ℚ) (n : Nat) (v : CellView) :
    (cellFold rate n v).cnt = v.cnt + cellDelta rate n v.coh := by
  induction n with
  | zero => simp [cellFold, cellDelta]
  | succ n ih =>
    rw [cellFold_succ, cellStep_cnt, ih, cellFold_coh]
    simp only [Nat.lt_irrefl, if_false]
    unfold cellDelta
    rw [Finset.sum_range_succ]
    ring

theorem cellFold_inf_ge (rate : ℚ) (n : Nat) (v : CellView)
    (h0 : 0 ≤ rate) :
    v.inf - cellDelta rate n v.coh ≤ (cellFold rate n v).inf := by
  induction n with
  | zero => simp [cellFold, cellDelta]
  | succ n ih =>
    rw [cellFold_succ]
    have h1 := cellStep_inf_ge rate (cellFold rate n v) n h0
    rw [cellFold_coh] at h1
    simp only [Nat.lt_irrefl, if_false] at h1
    unfold cellDelta at ih ⊢
    rw [Finset.sum_range_succ]
    omega

theorem mortalityBody_tracker_length (rate : ℚ) (i j : Nat) (s : MortState)
    (y : Nat) :
    (mortalityBody rate i j s y).tracker.length = s.tracker.length := by
  simp only [mortalityBody]
  split
  · simp
  · rfl

theorem mortalityBody_other (rate : ℚ) (i j : Nat) (s : MortState) (y : Nat)
    {i2 j2 : Nat} (h : ¬(i2 = i ∧ j2 = j)) :
    (mortalityBody rate i j s y).infected i2 j2 = s.infected i2 j2
    ∧ (mortalityBody rate i j s y).mortality i2 j2 = s.mortality i2 j2
    ∧ ∀ y2, ((mortalityBody rate i j s y).tracker.getD y2 zeroGrid) i2 j2
        = (s.tracker.getD y2 zeroGrid) i2 j2 := by
  simp only [mortalityBody]
  split
  · refine ⟨?_, upd_ne _ _ _ _ h, ?_⟩
    · by_cases hinf : 0 < s.infected i j
      · rw [if_pos hinf]
        exact upd_ne _ _ _ _ h
      · rw [if_neg hinf]
    · intro y2
      rw [tracker_set_getD]
      split_ifs with hcond
      · rw [upd_ne _ _ _ _ h, hcond.1]
      · rfl
  · exact ⟨rfl, rfl, fun _ => rfl⟩

theorem mortalityBody_viewAt (rate : ℚ) (i j : Nat) (s : MortState) (y : Nat)
    (hy : y < s.tracker.length) :
    viewAt i j (mortalityBody rate i j s y) = cellStep rate (viewAt i j s) y := by
  by_cases hc : 0 < (s.tracker.getD y zeroGrid) i j
  · simp only [mortalityBody, cellStep, viewAt]
    rw [if_pos hc, if_pos hc]
    simp only [CellView.mk.injEq]
    refine ⟨?_, upd_same _ _ _ _, ?_, trivial⟩
    · funext y2
      rw [tracker_set_getD]
      by_cases hy2 : y2 = y
      · subst hy2
        rw [if_pos ⟨rfl, hy⟩, upd_same, Function.update_same]
      · rw [if_neg (fun hh => hy2 hh.1), Function.update_noteq hy2]
    · by_cases hinf : 0 < s.infected i j
      · rw [if_pos hinf, if_pos hinf, upd_same]
      · rw [if_neg hinf, if_neg hinf]
  · simp only [mortalityBody, cellStep, viewAt]
    rw [if_neg hc, if_neg hc]

theorem cellStep_inf (rate : ℚ) (v : CellView) (y : Nat) :
    (cellStep rate v y).inf
      = if 0 < v.coh y ∧ 0 < v.inf then v.inf - cohortDecr rate (v.coh y)
        else v.inf := by
  by_cases hc : 0 < v.coh y
  · have hd : cohortDecr rate (v.coh y) = cxxTrunc (rate * (v.coh y : ℚ)) := by
      unfold cohortDecr
      rw [if_pos hc]
    simp only [cellStep]
    by_cases hi : 0 < v.inf
    · have hci : 0 < v.coh y ∧ 0 < v.inf := ⟨hc, hi⟩
      rw [if_pos hc, hd, if_pos hci]
      simp [hi]
    · have hci : ¬(0 < v.coh y ∧ 0 < v.inf) := fun hh => hi hh.2
      rw [if_pos hc, hd, if_neg hci]
      simp [hi]
  · have hci : ¬(0 < v.coh y ∧ 0 < v.inf) := fun hh => hc hh.1
    simp only [cellStep]
    rw [if_neg hc, if_neg hci]

theorem cellFold_cnt_irrel (rate : ℚ) (n : Nat) (v1 v2 : CellView)
    (hcoh : v1.coh = v2.coh) (hmort : v1.mort = v2.mort)
    (hinf : v1.inf = v2.inf) :
    (cellFold rate n v1).coh = (cellFold rate n v2).coh
    ∧ (cellFold rate n v1).mort = (cellFold rate n v2).mort
    ∧ (cellFold rate n v1).inf = (cellFold rate n v2).inf := by
  induction n with
  | zero => exact ⟨hcoh, hmort, hinf⟩
  | succ n ih =>
    obtain ⟨ic, im, ii⟩ := ih
    rw [cellFold_succ, cellFold_succ]
    refine ⟨?_, ?_, ?_⟩
    · funext y2
      rw [cellStep_coh, cellStep_coh, ic]
    · rw [cellStep_mort, cellStep_mort, im, ic]
    · rw [cellStep_inf, cellStep_inf, ic, ii]

theorem foldl_body_tracker_length (rate : ℚ) (i j : Nat) (L : List Nat) :
    ∀ s : MortState,
      (L.foldl (mortalityBody rate i j) s).tracker.length
        = s.tracker.length := by
  induction L with
  | nil => intro s; rfl
  | cons y L ih =>
    intro s
    rw [List.foldl_cons, ih, mortalityBody_tracker_length]

theorem foldl_body_other (rate : ℚ) (i j : Nat) (L : List Nat) :
    ∀ (s : MortState) {i2 j2 : Nat}, ¬(i2 = i ∧ j2 = j) →
      (L.foldl (mortalityBody rate i j) s).infected i2 j2 = s.infected i2 j2
      ∧ (L.foldl (mortalityBody rate i j) s).mortality i2 j2
          = s.mortality i2 j2
      ∧ ∀ y2, ((L.foldl (mortalityBody rate i j) s).tracker.getD y2
            zeroGrid) i2 j2
          = (s.tracker.getD y2 zeroGrid) i2 j2 := by
  induction L with
  | nil => exact fun s _ _ h => ⟨rfl, rfl, fun _ => rfl⟩
  | cons y L ih =>
    intro s i2 j2 h
    obtain ⟨b1, b2, b3⟩ := mortalityBody_other rate i j s y h
    obtain ⟨l1, l2, l3⟩ := ih (mortalityBody rate i j s y) h
    rw [List.foldl_cons]
    exact ⟨l1.trans b1, l2.trans b2, fun y2 => (l3 y2).trans (b3 y2)⟩

theorem foldl_body_viewAt (rate : ℚ) (i j : Nat) (L : List Nat) :
    ∀ s : MortState, (∀ y ∈ L, y < s.tracker.length) →
      viewAt i j (L.foldl (mortalityBody rate i j) s)
        = L.foldl (cellStep rate) (viewAt i j s) := by
  induction L with
  | nil => intro s _; rfl
  | cons y L ih =>
    intro s h
    rw [List.foldl_cons, List.foldl_cons,
      ih (mortalityBody rate i j s y)
        (fun y2 hy2 => by
          rw [mortalityBody_tracker_length]
          exact h y2 (List.mem_cons_of_mem y hy2)),
      mortalityBody_viewAt rate i j s y (h y (List.mem_cons_self y L))]

theorem mortalityCellLoop_viewAt (rate : ℚ) (maxY : Nat) (i j : Nat)
    (s : MortState) (hlen : maxY < s.tracker.length) :
    viewAt i j (mortalityCellLoop rate maxY i j s)
      = cellFold rate (maxY + 1) (viewAt i j s) :=
  foldl_body_viewAt rate i j (List.range (maxY + 1)) s
    (fun _y hy => Nat.lt_of_le_of_lt
      (Nat.lt_succ_iff.mp (List.mem_range.mp hy)) hlen)

theorem mortalityCellLoop_tracker_length (rate : ℚ) (maxY : Nat)
    (i j : Nat) (s : MortState) :
    (mortalityCellLoop rate maxY i j s).tracker.length
      = s.tracker.length :=
  foldl_body_tracker_length rate i j (List.range (maxY + 1)) s

theorem mortalityCellLoop_other (rate : ℚ) (maxY : Nat) (i j : Nat)
    (s : MortState) {i2 j2 : Nat} (h : ¬(i2 = i ∧ j2 = j)) :
    (mortalityCellLoop rate maxY i j s).infected i2 j2 = s.infected i2 j2
    ∧ (mortalityCellLoop rate maxY i j s).mortality i2 j2
        = s.mortality i2 j2
    ∧ ∀ y2, ((mortalityCellLoop rate maxY i j s).tracker.getD y2
          zeroGrid) i2 j2
        = (s.tracker.getD y2 zeroGrid) i2 j2 :=
  foldl_body_other rate i j (List.range (maxY + 1)) s h

/-- The cell loop of Simulation::mortality folded over a list of
cells. -/
def mortalityCellsFold (rate : ℚ) (maxY : Nat) (L : List (Nat × Nat))
    (s : MortState) : MortState :=
  L.foldl (fun s c => mortalityCellLoop rate maxY c.1 c.2 s) s

theorem mortality_eq_cellsFold (rate : ℚ)
    (current_year first_mortality_year : Int) (rows cols : Nat)
    (s : MortState) :
    mortality rate current_year first_mortality_year rows cols s
      = if first_mortality_year ≤ current_year then
          mortalityCellsFold rate
            (current_year - first_mortality_year).toNat
            (cellsList rows cols) s
        else s := rfl

theorem mortality_cells_fold (rate : ℚ) (maxY : Nat)
    (L : List (Nat × Nat)) :
    ∀ s : MortState, L.Nodup → maxY < s.tracker.length →
      ((mortalityCellsFold rate maxY L s).tracker.length
         = s.tracker.length)
      ∧ (∀ c2 : Nat × Nat, c2 ∉ L →
          (mortalityCellsFold rate maxY L s).infected c2.1 c2.2
              = s.infected c2.1 c2.2
          ∧ (mortalityCellsFold rate maxY L s).mortality c2.1 c2.2
              = s.mortality c2.1 c2.2
          ∧ ∀ y2, ((mortalityCellsFold rate maxY L s).tracker.getD y2
                zeroGrid) c2.1 c2.2
              = (s.tracker.getD y2 zeroGrid) c2.1 c2.2)
      ∧ (∀ c2 ∈ L,
          (mortalityCellsFold rate maxY L s).infected c2.1 c2.2
              = (cellFold rate (maxY + 1) (viewAt c2.1 c2.2 s)).inf
          ∧ (mortalityCellsFold rate maxY L s).mortality c2.1 c2.2
              = (cellFold rate (maxY + 1) (viewAt c2.1 c2.2 s)).mort
          ∧ ∀ y2, ((mortalityCellsFold rate maxY L s).tracker.getD y2
                zeroGrid) c2.1 c2.2
              = (cellFold rate (maxY + 1) (viewAt c2.1 c2.2 s)).coh y2)
      ∧ (mortalityCellsFold rate maxY L s).counter
          = s.counter + (L.map (fun c =>
              cellDelta rate (maxY + 1) (viewAt c.1 c.2 s).coh)).sum := by
  induction L with
  | nil =>
    intro s _ _
    exact ⟨rfl, fun c2 _ => ⟨rfl, rfl, fun _ => rfl⟩,
           fun c2 hc2 => absurd hc2 (List.not_mem_nil c2),
           by simp [mortalityCellsFold]⟩
  | cons c0 L ih =>
    intro s hnd hlen
    have hc0 : c0 ∉ L := (List.nodup_cons.mp hnd).1
    have hnd2 : L.Nodup := (List.nodup_cons.mp hnd).2
    have hlen1 : maxY
        < (mortalityCellLoop rate maxY c0.1 c0.2 s).tracker.length := by
      rw [mortalityCellLoop_tracker_length]
      exact hlen
    obtain ⟨ilen, iout, iin, icnt⟩ :=
      ih (mortalityCellLoop rate maxY c0.1 c0.2 s) hnd2 hlen1
    have hview : viewAt c0.1 c0.2 (mortalityCellLoop rate maxY c0.1 c0.2 s)
        = cellFold rate (maxY + 1) (viewAt c0.1 c0.2 s) :=
      mortalityCellLoop_viewAt rate maxY c0.1 c0.2 s hlen
    have hfold : mortalityCellsFold rate maxY (c0 :: L) s
        = mortalityCellsFold rate maxY L
            (mortalityCellLoop rate maxY c0.1 c0.2 s) := rfl
    refine ⟨?_, ?_, ?_, ?_⟩
    · rw [hfold, ilen, mortalityCellLoop_tracker_length]
    · intro c2 hc2
      have hc2c0 : c2 ≠ c0 := fun hh => hc2 (hh ▸ List.mem_cons_self c0 L)
      have hc2L : c2 ∉ L := fun hh => hc2 (List.mem_cons_of_mem c0 hh)
      have hne : ¬(c2.1 = c0.1 ∧ c2.2 = c0.2) :=
        fun hh => hc2c0 (Prod.ext hh.1 hh.2)
      obtain ⟨o1, o2, o3⟩ := iout c2 hc2L
      obtain ⟨p1, p2, p3⟩ := mortalityCellLoop_other rate maxY c0.1 c0.2 s hne
      rw [hfold]
      exact ⟨o1.trans p1, o2.trans p2, fun y2 => (o3 y2).trans (p3 y2)⟩
    · intro c2 hc2
      rcases List.mem_cons.mp hc2 with hc2 | hc2
      · subst hc2
        obtain ⟨o1, o2, o3⟩ := iout c2 hc0
        rw [hfold]
        refine ⟨?_, ?_, ?_⟩
        · rw [o1]
          exact congrArg CellView.inf hview
        · rw [o2]
          exact congrArg CellView.mort hview
        · intro y2
          rw [o3 y2]
          exact congrFun (congrArg CellView.coh hview) y2
      · have hc2c0 : c2 ≠ c0 := fun hh => hc0 (hh ▸ hc2)
        have hne : ¬(c2.1 = c0.1 ∧ c2.2 = c0.2) :=
          fun hh => hc2c0 (Prod.ext hh.1 hh.2)
        obtain ⟨p1, p2, p3⟩ :=
          mortalityCellLoop_other rate maxY c0.1 c0.2 s hne
        have hcoh : (viewAt c2.1 c2.2
            (mortalityCellLoop rate maxY c0.1 c0.2 s)).coh
            = (viewAt c2.1 c2.2 s).coh := funext fun y2 => p3 y2
        obtain ⟨q1, q2, q3⟩ := cellFold_cnt_irrel rate (maxY + 1)
          (viewAt c2.1 c2.2 (mortalityCellLoop rate maxY c0.1 c0.2 s))
          (viewAt c2.1 c2.2 s) hcoh p2 p1
        obtain ⟨r1, r2, r3⟩ := iin c2 hc2
        rw [hfold]
        exact ⟨r1.trans q3, r2.trans q2, fun y2 =>
          (r3 y2).trans (congrFun q1 y2)⟩
    · rw [hfold, icnt]
      have hcnt1 : (mortalityCellLoop rate maxY c0.1 c0.2 s).counter
          = s.counter + cellDelta rate (maxY + 1) (viewAt c0.1 c0.2 s).coh := by
        have := congrArg CellView.cnt hview
        rw [cellFold_cnt] at this
        exact this
      have hmap : L.map (fun c => cellDelta rate (maxY + 1)
            (viewAt c.1 c.2 (mortalityCellLoop rate maxY c0.1 c0.2 s)).coh)
          = L.map (fun c => cellDelta rate (maxY + 1)
            (viewAt c.1 c.2 s).coh) := by
        apply List.map_congr_left
        intro c2 hc2
        have hc2c0 : c2 ≠ c0 := fun hh => hc0 (hh ▸ hc2)
        have hne : ¬(c2.1 = c0.1 ∧ c2.2 = c0.2) :=
          fun hh => hc2c0 (Prod.ext hh.1 hh.2)
        obtain ⟨-, -, p3⟩ :=
          mortalityCellLoop_other rate maxY c0.1 c0.2 s hne
        have hcoh : (viewAt c2.1 c2.2
            (mortalityCellLoop rate maxY c0.1 c0.2 s)).coh
            = (viewAt c2.1 c2.2 s).coh := funext fun y2 => p3 y2
        rw [hcoh]
      rw [hmap, hcnt1, List.map_cons, List.sum_cons]
      ring

/-- The mortality state used by the claim C2 and C3 witnesses:
infected 5 everywhere, one tracker cohort of 3 everywhere. -/
def wMort : MortState := ⟨wFives, zeroGrid, [wThrees], 0⟩

/-- The mortality state of the claim C3 counterexample: infected 1
everywhere, one tracker cohort of 10 everywhere. -/
def wMortBad : MortState := ⟨wOnes, zeroGrid, [wTens], 0⟩

/-- Claim C2 counterexample: the cohort decrement in mortality() is
the double product converted to int, which truncates, not rounds.
With mortality_rate 1/2 and a cohort value of 3 the product is 3/2:
the code removes trunc(3/2) = 1, leaving 2 in the cohort, while the
claimed round(3/2) = 2 would leave 1. -/
theorem mortality_round_cex :
    ((mortality (1/2) 0 0 1 1 wMort).tracker.getD 0 zeroGrid) 0 0 = 2
    ∧ (3 : Int) - round ((1/2 : ℚ) * 3) = 1 := by
  constructor
  · rw [mortality_eq_cellsFold, if_pos (by decide)]
    obtain ⟨-, -, hin, -⟩ := mortality_cells_fold (1/2)
      ((0 : Int) - 0).toNat (cellsList 1 1) wMort (cellsList_nodup 1 1)
      (by decide)
    obtain ⟨-, -, r3⟩ := hin (0, 0)
      (mem_cellsList.mpr ⟨by decide, by decide⟩)
    rw [r3 0, cellFold_coh, if_pos (by decide)]
    show (3 : Int) - cohortDecr (1/2) 3 = 2
    norm_num [cohortDecr, cxxTrunc]
  · norm_num [round_eq]

/-- Claim C2 (corrected): for every cell and every processed cohort in
a year at or after first_mortality_year, the amount removed from the
cohort equals the product mortality_rate times the cohort value
truncated toward zero (cohortDecr; equal to the floor for the
non-negative values arising here), not rounded to the nearest
integer; the per-cell additions to the cumulative mortality grid and
the global additions to the per-step counter are the sums of these
truncated decrements. -/
theorem mortality_decrement_truncates (rate : ℚ) (cy fy : Int)
    (rows cols : Nat) (s : MortState) (i j y : Nat)
    (hge : fy ≤ cy) (hlen : (cy - fy).toNat < s.tracker.length)
    (hi : i < rows) (hj : j < cols) (hy : y < (cy - fy).toNat + 1) :
    ((mortality rate cy fy rows cols s).tracker.getD y zeroGrid) i j
      = (s.tracker.getD y zeroGrid) i j
        - cohortDecr rate ((s.tracker.getD y zeroGrid) i j)
    ∧ (mortality rate cy fy rows cols s).mortality i j
      = s.mortality i j
        + cellDelta rate ((cy - fy).toNat + 1)
            (fun y2 => (s.tracker.getD y2 zeroGrid) i j)
    ∧ (mortality rate cy fy rows cols s).counter
      = s.counter + ((cellsList rows cols).map (fun c =>
          cellDelta rate ((cy - fy).toNat + 1)
            (fun y2 => (s.tracker.getD y2 zeroGrid) c.1 c.2))).sum := by
  rw [mortality_eq_cellsFold, if_pos hge]
  obtain ⟨-, -, hin, hcnt⟩ := mortality_cells_fold rate (cy - fy).toNat
    (cellsList rows cols) s (cellsList_nodup rows cols) hlen
  obtain ⟨r1, r2, r3⟩ := hin (i, j) (mem_cellsList.mpr ⟨hi, hj⟩)
  refine ⟨?_, ?_, ?_⟩
  · rw [r3 y, cellFold_coh, if_pos hy]
    rfl
  · rw [r2, cellFold_mort]
    rfl
  · rw [hcnt]
    rfl

/-- Witness for the claim C2 theorem: rate 1/2, one cohort of value 3
at every cell of a 1 by 1 grid, current year equal to the first
mortality year. -/
theorem mortality_decrement_truncates_witness :
    ((mortality (1/2) 0 0 1 1 wMort).tracker.getD 0 zeroGrid) 0 0
      = (wMort.tracker.getD 0 zeroGrid) 0 0
        - cohortDecr (1/2) ((wMort.tracker.getD 0 zeroGrid) 0 0)
    ∧ (mortality (1/2) 0 0 1 1 wMort).mortality 0 0
      = wMort.mortality 0 0
        + cellDelta (1/2) (((0 : Int) - 0).toNat + 1)
            (fun y2 => (wMort.tracker.getD y2 zeroGrid) 0 0)
    ∧ (mortality (1/2) 0 0 1 1 wMort).counter
      = wMort.counter + ((cellsList 1 1).map (fun c =>
          cellDelta (1/2) (((0 : Int) - 0).toNat + 1)
            (fun y2 => (wMort.tracker.getD y2 zeroGrid) c.1 c.2))).sum :=
  mortality_decrement_truncates (1/2) 0 0 1 1 wMort 0 0 0 (by decide)
    (by decide) (by decide) (by decide) (by decide)

/-- Claim C3 counterexample: with mortality_rate 1/2 (within [0, 1])
and non-negative input grids — infected 1, one tracker cohort of
10 — the cohort decrement is 5 and the guarded subtraction only
checks that infected is positive before subtracting, so infected
drops to -4, below zero. -/
theorem mortality_infected_negative_cex :
    (mortality (1/2) 0 0 1 1 wMortBad).infected 0 0 = -4 := by
  rw [mortality_eq_cellsFold, if_pos (by decide)]
  obtain ⟨-, -, hin, -⟩ := mortality_cells_fold (1/2)
    ((0 : Int) - 0).toNat (cellsList 1 1) wMortBad (cellsList_nodup 1 1)
    (by decide)
  obtain ⟨r1, -, -⟩ := hin (0, 0)
    (mem_cellsList.mpr ⟨by decide, by decide⟩)
  rw [r1]
  show (cellFold (1/2) (0 + 1) (viewAt 0 0 wMortBad)).inf = -4
  rw [cellFold_succ, cellStep_inf]
  have hcoh : (cellFold (1/2) 0 (viewAt 0 0 wMortBad)).coh 0 = 10 := rfl
  have hinf : (cellFold (1/2) 0 (viewAt 0 0 wMortBad)).inf = 1 := rfl
  rw [hcoh, hinf]
  rw [if_pos ⟨by norm_num, by norm_num⟩]
  norm_num [cohortDecr, cxxTrunc]

/-- Claim C3 (corrected): mortality() keeps infected non-negative at
every cell provided, beyond 0 <= mortality_rate <= 1 and non-negative
input grids, the tracked cohorts at each in-bounds cell sum to at
most the infected count there (the invariant maintained by the rest
of the simulation); with non-negative grids alone the subtraction
can drive infected negative, since the code checks only that
infected is positive before subtracting the full decrement. -/
theorem mortality_keeps_infected_nonneg (rate : ℚ) (cy fy : Int)
    (rows cols : Nat) (s : MortState)
    (h0 : 0 ≤ rate) (h1 : rate ≤ 1)
    (hlen : (cy - fy).toNat < s.tracker.length)
    (hinf : ∀ i j, 0 ≤ s.infected i j)
    (hcoh : ∀ y i j, 0 ≤ (s.tracker.getD y zeroGrid) i j)
    (hsum : ∀ i j, i < rows → j < cols →
      ∑ y2 ∈ Finset.range ((cy - fy).toNat + 1),
        (s.tracker.getD y2 zeroGrid) i j ≤ s.infected i j) :
    ∀ i j, 0 ≤ (mortality rate cy fy rows cols s).infected i j := by
  intro i j
  rw [mortality_eq_cellsFold]
  by_cases hge : fy ≤ cy
  · rw [if_pos hge]
    obtain ⟨-, hout, hin, -⟩ := mortality_cells_fold rate (cy - fy).toNat
      (cellsList rows cols) s (cellsList_nodup rows cols) hlen
    by_cases hmem : (i, j) ∈ cellsList rows cols
    · obtain ⟨r1, -, -⟩ := hin (i, j) hmem
      dsimp only at r1
      rw [r1]
      have hge2 := cellFold_inf_ge rate ((cy - fy).toNat + 1)
        (viewAt i j s) h0
      have hdle : cellDelta rate ((cy - fy).toNat + 1) (viewAt i j s).coh
          ≤ ∑ y2 ∈ Finset.range ((cy - fy).toNat + 1),
              (s.tracker.getD y2 zeroGrid) i j := by
        unfold cellDelta
        apply Finset.sum_le_sum
        intro y2 _
        exact cohortDecr_le_self rate _ h0 h1 (hcoh y2 i j)
      have hs := hsum i j (mem_cellsList.mp hmem).1 (mem_cellsList.mp hmem).2
      have hv : (viewAt i j s).inf = s.infected i j := rfl
      omega
    · obtain ⟨r1, -, -⟩ := hout (i, j) hmem
      rw [r1]
      exact hinf i j
  · rw [if_neg hge]
    exact hinf i j

/-- Witness for the claim C3 theorem: rate 1/2, infected 5 and one
cohort of 3 at every cell of a 1 by 1 grid (cohort sum 3 is at most
the infected count 5); infected stays non-negative at (0, 0). -/
theorem mortality_keeps_infected_nonneg_witness :
    0 ≤ (mortality (1/2) 0 0 1 1 wMort).infected 0 0 :=
  mortality_keeps_infected_nonneg (1/2) 0 0 1 1 wMort (by norm_num)
    (by norm_num) (by decide) (fun i j => by norm_num [wMort, wFives])
    (fun y i j => by cases y <;> norm_num [wMort, wThrees, zeroGrid])
    (fun i j _ _ => by
      have h1 : ((0 : Int) - 0).toNat + 1 = 1 := rfl
      rw [h1, Finset.sum_range_one]
      norm_num [wMort, wThrees, wFives]) 0 0

end pops
